import Mathlib

/-!
Shallow embedding of the SPE particle-engine core (packages/spe and the
Emitter class of packages/example/src/scene-base.ts) and proofs about the
frozen specification claims.

Numeric values are modelled as rationals (`ℚ`); JavaScript `Infinity` and
`-Infinity`, where the code manipulates them, are modelled by an explicit
extended-number type.  Typed arrays are modelled as `List ℚ`; out-of-range
writes are silently dropped (`List.set` semantics), matching JavaScript
typed-array behaviour.
-/

namespace SPE

/-- `MathUtils.clamp(value, min, max)` from three.js: `max(min, Math.min(max, value))`. -/
def jsClamp (value lo hi : ℚ) : ℚ := max lo (min hi value)

/-- `lerpTypeAgnostic` from `utils.ts`, numeric branch:
`start + (end - start) * delta`. -/
def lerpTypeAgnostic (s e delta : ℚ) : ℚ := s + (e - s) * delta

/-- `interpolateArray` from `utils.ts` specialised to numbers.
`newArray = [src[0]]`; a loop fills indices `1 .. newLength-2` with
`lerp(src[floor(f)], src[ceil(f)], f - floor(f))` where
`f = i * (srcLen-1)/(newLength-1)`; finally the last source element is pushed.
Out-of-range reads (which do not occur for the lengths used by the code)
default to `0`. -/
def interpolateArray (src : List ℚ) (newLength : ℕ) : List ℚ :=
  let factor : ℚ := ((src.length : ℚ) - 1) / ((newLength : ℚ) - 1)
  (src.headD 0) ::
    ((List.range (newLength - 2)).map (fun i0 =>
      let f : ℚ := (i0 + 1 : ℕ) * factor
      let before : ℤ := ⌊f⌋
      let after : ℤ := ⌈f⌉
      let delta : ℚ := f - before
      lerpTypeAgnostic (src.getD before.toNat 0) (src.getD after.toNat 0) delta))
    ++ [src.getLastD 0]

/-- `ensureValueAndSpreadOverLifetimeCompliance` from `utils.ts`, for inputs
already in array form (the function wraps non-arrays into singleton arrays
before this logic).  `minLength = minLength || 3` models the JS falsy-default. -/
def ensureValueAndSpreadOverLifetimeCompliance (value spread : List ℚ)
    (minLength maxLength : ℕ) : List ℚ × List ℚ :=
  let minL := if minLength = 0 then 3 else minLength
  let maxL := if maxLength = 0 then 3 else maxLength
  let valueLength := max minL (min maxL value.length)
  let spreadLength := max minL (min maxL spread.length)
  let desiredLength := max valueLength spreadLength
  (if value.length ≠ desiredLength then interpolateArray value desiredLength else value,
   if spread.length ≠ desiredLength then interpolateArray spread desiredLength else spread)

/-- Modelled from the spec: the `valueOverLifetimeLength` constant lives in
`src/constants.ts`, which is absent from the provided sources.  The spec fixes
the value-over-lifetime resolution at 4 (all lifetime attribute channels are
vec4 and the example scenes index keyframes 0..3). -/
def valueOverLifetimeLength : ℕ := 4

/-- A JavaScript reference cell that can hold an emitter, `null`, or
`undefined`.  `getFromPool` is documented to return `Emitter|null` but
actually produces `undefined` on the empty-pool paths; the distinction
matters for `_triggerSingleEmitter`'s `=== null` guard.  Emitters are
identified by numeric ids. -/
inductive JSRef where
  | jsNull : JSRef
  | jsUndefined : JSRef
  | ref : ℕ → JSRef
deriving DecidableEq, Repr

/-- A JavaScript runtime exception. -/
inductive JSError where
  | typeError : JSError
deriving DecidableEq, Repr

/-- `Group.getFromPool` from `group.ts`: if the pool is nonempty, `pop()` the
last element; otherwise both the grow branch (whose body is commented out)
and the fallthrough return `undefined`. -/
def getFromPool (pool : List ℕ) : JSRef × List ℕ :=
  if pool.isEmpty then (JSRef.jsUndefined, pool)
  else (JSRef.ref (pool.getLastD 0), pool.dropLast)

/-- `Group.releaseIntoPool` from `group.ts`: resets the emitter (out of scope
for the pool-order claims) and `unshift`s it onto the front of the pool. -/
def releaseIntoPool (e : ℕ) (pool : List ℕ) : List ℕ := e :: pool

/-- A sequence of `releaseIntoPool` calls, first element released first. -/
def releaseAll (es : List ℕ) (pool : List ℕ) : List ℕ :=
  es.foldl (fun p e => releaseIntoPool e p) pool

/-- The pool-related slice of a `Group`'s state, for the trigger path:
the pool, the grow flag, the ids of emitters enabled by triggers, and the
console log. -/
structure PoolGroupSt where
  pool : List ℕ
  createNewWhenPoolEmpty : Bool
  enabled : List ℕ
  log : List String
deriving DecidableEq, Repr

/-- `Group._triggerSingleEmitter` from `group.ts`: fetches from the pool,
logs and drops only when the result is strictly `null`, and otherwise
dereferences it (copying the position when one is provided, then calling
`enable()` and scheduling the timed release, which is outside this model).
A dereference of `undefined` raises a `TypeError`. -/
def triggerSingleEmitter (_hasPos : Bool) (g : PoolGroupSt) : Except JSError PoolGroupSt :=
  let fetched := getFromPool g.pool
  let g' : PoolGroupSt := { g with pool := fetched.2 }
  if fetched.1 = JSRef.jsNull then
    Except.ok { g' with log := g'.log ++ ["SPE.Group pool ran out."] }
  else
    match fetched.1 with
    | JSRef.ref i => Except.ok { g' with enabled := g'.enabled ++ [i] }
    | _ => Except.error JSError.typeError

/-- `Group.triggerPoolEmitter` from `group.ts`: `numEmitters > 1` triggers in
a loop, otherwise a single trigger is performed. -/
def triggerPoolEmitter (numEmitters : ℕ) (hasPos : Bool) (g : PoolGroupSt) :
    Except JSError PoolGroupSt :=
  if 1 < numEmitters then
    (List.range numEmitters).foldlM (fun s _ => triggerSingleEmitter hasPos s) g
  else
    triggerSingleEmitter hasPos g

/-- One particle slot of the `params` attribute channel:
`vec4(alive, age, maxAge, wiggle)`. -/
structure Slot where
  alive : ℚ
  age : ℚ
  maxAge : ℚ
  wiggle : ℚ
deriving DecidableEq, Repr

/-- The default slot used for out-of-range reads in statements. -/
def slot0 : Slot := ⟨0, 0, 0, 0⟩

/-- The body of `Emitter._checkParticleAges` for one slot (the loop reads and
writes only the slot at hand): a dead slot (`alive === 0.0`) is skipped;
otherwise age is advanced by `dt` (direction `1`) or reduced by `dt`
(otherwise), and on crossing the max-age boundary (`age >= maxAge` forward,
`age <= 0` backward) the slot is marked dead with the age reset (`0` forward,
`maxAge` backward).  The second component reports whether
`_decrementParticleCount` ran for this slot. -/
def checkSlot (direction : ℤ) (dt : ℚ) (s : Slot) : Slot × Bool :=
  if s.alive = 0 then (s, false)
  else if direction = 1 then
    let age := s.age + dt
    if s.maxAge ≤ age then ({ s with alive := 0, age := 0 }, true)
    else ({ s with age := age }, false)
  else
    let age := s.age - dt
    if age ≤ 0 then ({ s with alive := 0, age := s.maxAge }, true)
    else ({ s with age := age }, false)

/-- `Emitter._checkParticleAges` from `scene-base.ts`: sweep the slots
`[start, end)` of the params channel (each slot independently, so the
descending iteration order of the source loop is immaterial), returning the
updated channel and the number of times the active-particle counter was
decremented. -/
def checkParticleAges (direction : ℤ) (dt : ℚ) (start end_ : ℕ)
    (params : List Slot) : List Slot × ℕ :=
  (params.mapIdx (fun i s =>
      if start ≤ i ∧ i < end_ then (checkSlot direction dt s).1 else s),
   ((params.drop start).take (end_ - start)).countP
      (fun s => (checkSlot direction dt s).2))

/-- `Emitter.calculatePPSValue` from `scene-base.ts`: with a finite duration
(`duration !== -1`) the divisor is the smaller of `groupMaxAge` and the
duration; otherwise it is `groupMaxAge`. -/
def calculatePPSValue (particleCount duration groupMaxAge : ℚ) : ℚ :=
  if duration ≠ -1 then
    particleCount / (if groupMaxAge < duration then groupMaxAge else duration)
  else particleCount / groupMaxAge

/-- The emission rate `Group.addEmitter` installs: it calls
`calculatePPSValue(maxAge.value + maxAge.spread)`. -/
def ppsOnAdd (particleCount maxAgeValue maxAgeSpread duration : ℚ) : ℚ :=
  calculatePPSValue particleCount duration (maxAgeValue + maxAgeSpread)

/-- The slice of an emitter's configuration read by `Group.updateDefines`:
the angle lifetime keyframes and spreads, the rotation angle and its spread,
and the wiggle value and spread. -/
structure EmitterDefines where
  angleValue : List ℚ
  angleSpread : List ℚ
  rotationAngle : ℚ
  rotationAngleSpread : ℚ
  wiggleValue : ℚ
  wiggleSpread : ℚ
deriving DecidableEq, Repr

/-- JS `Math.max.apply(null, xs)` for the nonempty keyframe arrays passed by
`updateDefines` (lifetime arrays always have `valueOverLifetimeLength`
entries). -/
def jsMaxList : List ℚ → ℚ
  | [] => 0
  | x :: xs => xs.foldl max x

/-- The truthiness test the code applies for the texture-rotation flag:
`!!Math.max(Math.max(...angle.value), Math.max(...angle.spread))`. -/
def condRotTexture (e : EmitterDefines) : Bool :=
  decide (max (jsMaxList e.angleValue) (jsMaxList e.angleSpread) ≠ 0)

/-- `!!Math.max(rotation.angle, rotation.angleSpread)`. -/
def condRotParticles (e : EmitterDefines) : Bool :=
  decide (max e.rotationAngle e.rotationAngleSpread ≠ 0)

/-- `!!Math.max(wiggle.value, wiggle.spread)`. -/
def condWiggle (e : EmitterDefines) : Bool :=
  decide (max e.wiggleValue e.wiggleSpread ≠ 0)

/-- The feature-flag defines of a `Group`'s shader material. -/
structure DefinesSt where
  shouldRotateTexture : Bool
  shouldRotateParticles : Bool
  shouldWiggleParticles : Bool
  shouldCalculateSprite : Bool
deriving DecidableEq, Repr

/-- One iteration of the `Group.updateDefines` loop: each flag is OR-ed with
the emitter's condition; the texture-rotation flag is only considered when no
sprite-sheet is configured. -/
def updateDefinesStep (d : DefinesSt) (e : EmitterDefines) : DefinesSt :=
  { d with
    shouldRotateTexture :=
      if !d.shouldCalculateSprite then d.shouldRotateTexture || condRotTexture e
      else d.shouldRotateTexture
    shouldRotateParticles := d.shouldRotateParticles || condRotParticles e
    shouldWiggleParticles := d.shouldWiggleParticles || condWiggle e }

/-- `Group.updateDefines` from `group.ts`: iterate over all emitters (the
source loop runs from the last index down) OR-ing each flag with the
per-emitter conditions.  Flags are never reset. -/
def updateDefines (d : DefinesSt) (emitters : List EmitterDefines) : DefinesSt :=
  emitters.reverse.foldl updateDefinesStep d

/-- The defines-relevant slice of a `Group`'s state. -/
structure GroupDefinesSt where
  defines : DefinesSt
  emitters : List EmitterDefines
deriving DecidableEq, Repr

/-- The defines-effect of `Group.addEmitter`: append the emitter, then
recompute defines over the new emitter list. -/
def addEmitterDefines (e : EmitterDefines) (g : GroupDefinesSt) : GroupDefinesSt :=
  let ems := g.emitters ++ [e]
  { emitters := ems, defines := updateDefines g.defines ems }

/-- The defines-effect of `Group.removeEmitter`: drop the emitter at the
located index, then recompute defines over the remaining emitters. -/
def removeEmitterDefines (i : ℕ) (g : GroupDefinesSt) : GroupDefinesSt :=
  let ems := g.emitters.eraseIdx i
  { emitters := ems, defines := updateDefines g.defines ems }

/-- An operation affecting the defines: adding an emitter, removing one, or a
bare `updateDefines()` call (property setters issue those). -/
inductive DefinesOp where
  | add : EmitterDefines → DefinesOp
  | remove : ℕ → DefinesOp
  | recompute : DefinesOp

/-- Apply one defines-affecting operation. -/
def applyDefinesOp (g : GroupDefinesSt) : DefinesOp → GroupDefinesSt
  | DefinesOp.add e => addEmitterDefines e g
  | DefinesOp.remove i => removeEmitterDefines i g
  | DefinesOp.recompute => { g with defines := updateDefines g.defines g.emitters }

/-- Apply a sequence of defines-affecting operations, oldest first. -/
def applyDefinesOps (g : GroupDefinesSt) (ops : List DefinesOp) : GroupDefinesSt :=
  ops.foldl applyDefinesOp g

/-- The claimed per-slot effect of the age-and-death sweep on an in-range
slot `s` with result `t`: dead slots are untouched; alive slots age by `dt`
(forward) or `-dt` (reversed); crossing the boundary marks the slot dead
(with the age wrapped to `0` forward, `maxAge` backward), leaving `maxAge`
and `wiggle` intact throughout. -/
def sweepSlotSpec (direction : ℤ) (dt : ℚ) (s t : Slot) : Prop :=
  (s.alive = 0 → t = s) ∧
  (s.alive ≠ 0 → direction = 1 → s.age + dt < s.maxAge →
    t = { s with age := s.age + dt }) ∧
  (s.alive ≠ 0 → direction = 1 → s.maxAge ≤ s.age + dt →
    t = { s with alive := 0, age := 0 }) ∧
  (s.alive ≠ 0 → direction ≠ 1 → 0 < s.age - dt →
    t = { s with age := s.age - dt }) ∧
  (s.alive ≠ 0 → direction ≠ 1 → s.age - dt ≤ 0 →
    t = { s with alive := 0, age := s.maxAge })

/-- A concrete three-slot params channel used as a witness input: slot 0
alive and young, slot 1 dead, slot 2 alive and about to cross its max age. -/
def demoParams : List Slot := [⟨1, 1/2, 2, 0⟩, ⟨0, 3/10, 1, 5⟩, ⟨1, 19/10, 2, 0⟩]

/-- The loop shared by `Group.removeEmitter` and `Emitter.reset(true)`:
starting at slot `start`, for `n` slots write `array[i*4] = 0` (alive) and
`array[i*4 + 1] = 0` (age) into the flat params element array.  The source
iterates descending; each index is written once, so iteration order is
immaterial. -/
def zeroAliveAgeLoop (start n : ℕ) (l : List ℚ) : List ℚ :=
  (List.range n).foldl
    (fun acc j => (acc.set ((start + j) * 4) 0).set ((start + j) * 4 + 1) 0) l

/-- Alive/age zeroing over the slot range `[start, end)` as both call sites
spell it. -/
def zeroAliveAge (start end_ : ℕ) (l : List ℚ) : List ℚ :=
  zeroAliveAgeLoop start (end_ - start) l

/-- The `updateRange`/`needsUpdate` state `reset(true)` leaves on the params
`BufferAttribute`: `offset = 0`, `count = -1`, `needsUpdate = true`. -/
structure BufferUpdateMark where
  offset : ℤ
  count : ℤ
  needsUpdate : Bool
deriving DecidableEq, Repr

/-- The full-re-upload marking. -/
def fullReuploadMark : BufferUpdateMark := ⟨0, -1, true⟩

/-- The emitter-local state touched by `Emitter.reset`. -/
structure EmitterResetSt where
  age : ℚ
  alive : Bool
deriving DecidableEq, Repr

/-- The identity and slot-range bookkeeping of an attached emitter. -/
structure EmitterSlotRec where
  uuid : ℕ
  attributeOffset : ℕ
  particleCount : ℕ
deriving DecidableEq, Repr

/-- One attribute channel: its component size and the flat element array of
its `CompositeTypedArray`. -/
structure Channel where
  componentSize : ℕ
  data : List ℚ
deriving DecidableEq, Repr

/-- `CompositeTypedArray.splice(start, end)`: scale both bounds by the
component size, keep every element whose index is below `start*cs` or at
least `end*cs`, and replace the backing array with the collected data
(`setFromArray(0, data)` shrinks the array to the new length). -/
def spliceTypedArray (cs start end_ : ℕ) (l : List ℚ) : List ℚ :=
  l.take (start * cs) ++ l.drop (end_ * cs)

/-- The buffer-relevant slice of a `Group`'s state: the attached emitters,
the total particle count, the params channel, and the remaining channels. -/
structure GroupBuffersSt where
  emitters : List EmitterSlotRec
  particleCount : ℕ
  params : Channel
  channels : List Channel
deriving DecidableEq, Repr

/-- `Group.removeEmitter` from `group.ts`: a non-member is rejected with a
logged error (no-op).  Otherwise the emitter's slots get alive/age zeroed in
the params array (stride 4, as the source hard-codes), the emitter is removed
from the store, every channel is spliced over `[attributeOffset,
attributeOffset + particleCount)`, and the group's particle count drops.
No surviving emitter's `attributeOffset` is touched (`setAttributeOffset` is
only ever called from `addEmitter`). -/
def removeEmitterGroup (g : GroupBuffersSt) (em : EmitterSlotRec) : GroupBuffersSt :=
  if (g.emitters.map (fun e => e.uuid)).contains em.uuid = false then g
  else
    let start := em.attributeOffset
    let end_ := start + em.particleCount
    { emitters := g.emitters.eraseP (fun e => e.uuid == em.uuid),
      particleCount := g.particleCount - em.particleCount,
      params := { g.params with
        data := spliceTypedArray g.params.componentSize start end_
          (zeroAliveAge start end_ g.params.data) },
      channels := g.channels.map (fun c =>
        { c with data := spliceTypedArray c.componentSize start end_ c.data }) }

/-- A JavaScript number as used by the update-range bookkeeping: a finite
rational, one of the infinities, or NaN. -/
inductive JSNum where
  | fin : ℚ → JSNum
  | posInf : JSNum
  | negInf : JSNum
  | nan : JSNum
deriving DecidableEq, Repr

/-- `Math.min` on `JSNum`. -/
def jsnMin : JSNum → JSNum → JSNum
  | JSNum.nan, _ => JSNum.nan
  | _, JSNum.nan => JSNum.nan
  | JSNum.negInf, _ => JSNum.negInf
  | _, JSNum.negInf => JSNum.negInf
  | JSNum.posInf, b => b
  | a, JSNum.posInf => a
  | JSNum.fin a, JSNum.fin b => JSNum.fin (min a b)

/-- `Math.max` on `JSNum`. -/
def jsnMax : JSNum → JSNum → JSNum
  | JSNum.nan, _ => JSNum.nan
  | _, JSNum.nan => JSNum.nan
  | JSNum.posInf, _ => JSNum.posInf
  | _, JSNum.posInf => JSNum.posInf
  | JSNum.negInf, b => b
  | a, JSNum.negInf => a
  | JSNum.fin a, JSNum.fin b => JSNum.fin (max a b)

/-- Multiplication of a `JSNum` by a natural component size
(`0 * Infinity` is NaN in JavaScript). -/
def jsnScale (cs : ℕ) : JSNum → JSNum
  | JSNum.fin q => JSNum.fin (q * cs)
  | JSNum.posInf => if cs = 0 then JSNum.nan else JSNum.posInf
  | JSNum.negInf => if cs = 0 then JSNum.nan else JSNum.negInf
  | JSNum.nan => JSNum.nan

/-- Addition on `JSNum` (`Infinity + -Infinity` is NaN). -/
def jsnAdd : JSNum → JSNum → JSNum
  | JSNum.nan, _ => JSNum.nan
  | _, JSNum.nan => JSNum.nan
  | JSNum.posInf, JSNum.negInf => JSNum.nan
  | JSNum.negInf, JSNum.posInf => JSNum.nan
  | JSNum.posInf, _ => JSNum.posInf
  | _, JSNum.posInf => JSNum.posInf
  | JSNum.negInf, _ => JSNum.negInf
  | _, JSNum.negInf => JSNum.negInf
  | JSNum.fin a, JSNum.fin b => JSNum.fin (a + b)

/-- Negation on `JSNum`. -/
def jsnNeg : JSNum → JSNum
  | JSNum.fin q => JSNum.fin (-q)
  | JSNum.posInf => JSNum.negInf
  | JSNum.negInf => JSNum.posInf
  | JSNum.nan => JSNum.nan

/-- Subtraction on `JSNum`. -/
def jsnSub (a b : JSNum) : JSNum := jsnAdd a (jsnNeg b)

/-- The `_updateMin`/`_updateMax` fields of a `ShaderAttribute`. -/
structure ShaderAttributeRange where
  updateMin : JSNum
  updateMax : JSNum
deriving DecidableEq, Repr

/-- `ShaderAttribute.resetUpdateRange`: both fields become `0` (not
`±Infinity`). -/
def resetUpdateRange (_s : ShaderAttributeRange) : ShaderAttributeRange :=
  ⟨JSNum.fin 0, JSNum.fin 0⟩

/-- `ShaderAttribute.setUpdateRange(min, max)`: both the incoming bounds and
the stored bounds are multiplied by the component size before the min/max. -/
def setUpdateRange (cs : ℕ) (min_ max_ : JSNum) (s : ShaderAttributeRange) :
    ShaderAttributeRange :=
  ⟨jsnMin (jsnScale cs min_) (jsnScale cs s.updateMin),
   jsnMax (jsnScale cs max_) (jsnScale cs s.updateMax)⟩

/-- The `updateRange`/`needsUpdate` state `ShaderAttribute.flagUpdate` writes
onto the `BufferAttribute`. -/
structure FlagUpdateResult where
  offset : JSNum
  count : JSNum
  needsUpdate : Bool
deriving DecidableEq, Repr

/-- `ShaderAttribute.flagUpdate`: `offset = _updateMin`,
`count = Math.min(_updateMax - _updateMin + componentSize, array.length)`,
and `needsUpdate = true` — unconditionally. -/
def flagUpdate (cs arrayLength : ℕ) (s : ShaderAttributeRange) : FlagUpdateResult :=
  ⟨s.updateMin,
   jsnMin (jsnAdd (jsnSub s.updateMax s.updateMin) (JSNum.fin cs))
     (JSNum.fin arrayLength),
   true⟩

/-- One entry of `Emitter._bufferUpdateRanges`. -/
structure EmitterRange where
  min : JSNum
  max : JSNum
deriving DecidableEq, Repr

/-- `Emitter.setBufferUpdateRanges` initialises each channel's range to
`(+Infinity, -Infinity)`; nothing ever resets it afterwards. -/
def initialEmitterRange : EmitterRange := ⟨JSNum.posInf, JSNum.negInf⟩

/-- `Emitter._updateAttributeUpdateRange(attr, i)`. -/
def updateAttributeUpdateRange (i : ℕ) (r : EmitterRange) : EmitterRange :=
  ⟨jsnMin (JSNum.fin i) r.min, jsnMax (JSNum.fin i) r.max⟩

/-- The slot indices written in a channel during one emitter tick, recorded
in order. -/
def recordWrites (writes : List ℕ) (r : EmitterRange) : EmitterRange :=
  writes.foldl (fun r i => updateAttributeUpdateRange i r) r

/-- One channel's update-range life during `Group.tick`:
`_resetBufferRanges` resets the `ShaderAttribute` range, the emitter tick
records its writes, and `_updateBuffers` pushes the emitter range into the
attribute (`setUpdateRange`) and calls `flagUpdate` — for every channel,
whether or not it was written. -/
def tickChannelReport (cs arrayLength : ℕ) (writes : List ℕ)
    (s0 : ShaderAttributeRange) (r0 : EmitterRange) : FlagUpdateResult :=
  let s1 := resetUpdateRange s0
  let r1 := recordWrites writes r0
  flagUpdate cs arrayLength (setUpdateRange cs r1.min r1.max s1)

/-- The `_size`/`array.length` pair of a `CompositeTypedArray`.  The code
stores mixed units in `_size`: construction stores the slot count, while
`setSize` stores the element count. -/
structure TAState where
  size : ℕ
  arrLen : ℕ
deriving DecidableEq, Repr

/-- `CompositeTypedArray.setSize(slots)` (the call multiplies by the
component size): both a shrink and a grow set `_size` and the array length to
`slots * cs`; an equal size only logs. -/
def setSizeTA (cs slots : ℕ) (ta : TAState) : TAState :=
  let s := slots * cs
  if s ≠ ta.arrLen then { size := s, arrLen := s } else ta

/-- `ShaderAttribute._ensureTypedArray(size)` (reached via
`createBufferAttribute`): no-op when `_typedArray.size === size * cs`;
otherwise resize when `_typedArray.size !== size` (note the unit mismatch
carried over from the source); create the array at `size` slots when none
exists. -/
def ensureTypedArray (cs slots : ℕ) : Option TAState → Option TAState
  | some ta =>
      if ta.size = slots * cs then some ta
      else if ta.size ≠ slots then some (setSizeTA cs slots ta)
      else some ta
  | none => some { size := slots, arrLen := slots * cs }

/-- The capacity-relevant slice of a `Group`'s state for `addEmitter`:
the declared capacity, the running particle count, the attached emitters'
counts, each channel's component size and typed-array state, and whether the
last add logged the capacity warning. -/
structure GroupCapacitySt where
  maxParticleCount : Option ℕ
  particleCount : ℕ
  emitterCounts : List ℕ
  channels : List (ℕ × Option TAState)
  warned : Bool
deriving DecidableEq, Repr

/-- `Group.addEmitter` from `group.ts`, capacity aspects: the particle count
grows by the emitter's count; a warning is logged when a declared capacity is
now exceeded; the operation then proceeds, sizing every channel's buffer via
`createBufferAttribute(maxParticleCount ?? particleCount)` — the declared
capacity, NOT the new total, whenever a capacity was declared. -/
def addEmitterCapacity (g : GroupCapacitySt) (count : ℕ) : GroupCapacitySt :=
  let newCount := g.particleCount + count
  { maxParticleCount := g.maxParticleCount,
    particleCount := newCount,
    emitterCounts := g.emitterCounts ++ [count],
    channels := g.channels.map (fun c =>
      (c.1, ensureTypedArray c.1
        (match g.maxParticleCount with
         | some m => m
         | none => newCount) c.2)),
    warned :=
      match g.maxParticleCount with
      | some m => decide (m < newCount)
      | none => false }

/-- A two-emitter, two-channel group used for the removal counterexample:
emitter A (uuid 0) occupies slots `[0, 2)`, emitter B (uuid 1) slots
`[2, 4)`; the params channel holds four 4-component slots; one more channel
holds four 1-component slots. -/
def gRemoveDemo : GroupBuffersSt :=
  { emitters := [⟨0, 0, 2⟩, ⟨1, 2, 2⟩],
    particleCount := 4,
    params := ⟨4, [1, 0, 2, 0, 1, 0, 2, 0, 1, 5, 3, 7, 1, 6, 3, 8]⟩,
    channels := [⟨1, [10, 11, 12, 13]⟩] }

/-- A fresh capacity-10 group with one 3-component and one 4-component
channel, used for the capacity counterexample. -/
def gCapDemo : GroupCapacitySt :=
  { maxParticleCount := some 10,
    particleCount := 0,
    emitterCounts := [],
    channels := [(3, none), (4, none)],
    warned := false }

/-- `Emitter.reset(force)` from `scene-base.ts`: always zeroes the emitter's
age and alive flag; when `force === true` it also zeroes alive/age of every
slot in the emitter's own `[attributeOffset, attributeOffset+particleCount)`
range of the shared params element array and marks the params buffer
attribute for a full re-upload.  `others` carries the remaining attribute
channels, which the function never touches. -/
def emitterReset (force : Bool) (_e : EmitterResetSt)
    (attributeOffset particleCount : ℕ) (params : List ℚ)
    (others : List (List ℚ)) :
    EmitterResetSt × List ℚ × List (List ℚ) × Option BufferUpdateMark :=
  let e' : EmitterResetSt := { age := 0, alive := false }
  if force = true then
    (e', zeroAliveAge attributeOffset (attributeOffset + particleCount) params,
      others, some fullReuploadMark)
  else (e', params, others, none)

end SPE

namespace SPE

/-- Helper: `interpolateArray` of a singleton to length 4 broadcasts the value. -/
theorem interpolateArray_singleton (x : ℚ) :
    interpolateArray [x] 4 = [x, x, x, x] := by
  simp [interpolateArray, lerpTypeAgnostic, List.range_succ]

/-- C8: assigning a length-1 value array to a lifetime-curve property stores a
length-`valueOverLifetimeLength` array with every entry equal to the single
input; an already-compliant (length-4) array is stored unchanged, so the
normalization is idempotent. -/
theorem lifetime_curve_normalization_idempotent (x : ℚ) (v4 spread : List ℚ)
    (hv : v4.length = valueOverLifetimeLength)
    (hs : spread.length = valueOverLifetimeLength) :
    (ensureValueAndSpreadOverLifetimeCompliance [x] spread
        valueOverLifetimeLength valueOverLifetimeLength).1 =
      List.replicate valueOverLifetimeLength x ∧
    (ensureValueAndSpreadOverLifetimeCompliance v4 spread
        valueOverLifetimeLength valueOverLifetimeLength).1 = v4 := by
  constructor
  · have h1 : (ensureValueAndSpreadOverLifetimeCompliance [x] spread
        valueOverLifetimeLength valueOverLifetimeLength).1 = interpolateArray [x] 4 := by
      simp [ensureValueAndSpreadOverLifetimeCompliance, valueOverLifetimeLength, hs]
    rw [h1, interpolateArray_singleton]
    rfl
  · simp [ensureValueAndSpreadOverLifetimeCompliance, valueOverLifetimeLength, hv, hs]

/-- Witness for C8 at `x = 7`, `v4 = [1,2,3,4]`, `spread = [0,0,0,0]`. -/
theorem lifetime_curve_normalization_idempotent_witness :
    (ensureValueAndSpreadOverLifetimeCompliance [7] [0, 0, 0, 0]
        valueOverLifetimeLength valueOverLifetimeLength).1 =
      List.replicate valueOverLifetimeLength (7 : ℚ) ∧
    (ensureValueAndSpreadOverLifetimeCompliance [1, 2, 3, 4] [0, 0, 0, 0]
        valueOverLifetimeLength valueOverLifetimeLength).1 = [1, 2, 3, 4] :=
  lifetime_curve_normalization_idempotent 7 [1, 2, 3, 4] [0, 0, 0, 0] rfl rfl

/-- Helper: releasing a list of emitters into a pool prepends its reverse. -/
theorem releaseAll_eq_reverse_append (es : List ℕ) (pool : List ℕ) :
    releaseAll es pool = es.reverse ++ pool := by
  induction es generalizing pool with
  | nil => simp [releaseAll]
  | cons e es ih =>
      simp only [releaseAll, List.foldl_cons, List.reverse_cons, List.append_assoc]
      simp [releaseAll, releaseIntoPool, ih]

/-- C5 counterexample: releasing emitter 1 then emitter 2 into an empty pool
and fetching yields emitter 1, not the most recently released emitter 2. -/
theorem pool_lifo_counterexample :
    (getFromPool (releaseIntoPool 2 (releaseIntoPool 1 []))).1 = JSRef.ref 1 ∧
    (getFromPool (releaseIntoPool 2 (releaseIntoPool 1 []))).1 ≠ JSRef.ref 2 := by
  decide

/-- C5 (amended): the emitter pool is a FIFO queue: `releaseIntoPool`
`unshift`s onto the front and `getFromPool` `pop`s from the back, so after any
sequence of releases into an empty pool with no interleaved pool operations,
the first fetch returns the LEAST recently released emitter. -/
theorem pool_fifo (es : List ℕ) (h : es ≠ []) :
    (getFromPool (releaseAll es [])).1 = JSRef.ref (es.headD 0) := by
  rw [releaseAll_eq_reverse_append]
  match es, h with
  | e :: es, _ =>
      simp [getFromPool, List.getLastD_eq_getLast?]

/-- Witness for C5 (amended) at the release sequence `[1, 2]`. -/
theorem pool_fifo_witness :
    (getFromPool (releaseAll [1, 2] [])).1 = JSRef.ref ([1, 2].headD 0) :=
  pool_fifo [1, 2] (by decide)

/-- C4: with an empty pool and growth disallowed, `triggerPoolEmitter(1, pos)`
raises a `TypeError` instead of logging and dropping the request:
`getFromPool` returns `undefined`, the guard compares it against `null` with
strict equality (which fails), and the subsequent property access throws. -/
theorem trigger_empty_pool_throws :
    triggerPoolEmitter 1 true
        { pool := [], createNewWhenPoolEmpty := false, enabled := [], log := [] } =
      Except.error JSError.typeError := rfl

/-- C6 counterexample: an emitter with `particleCount = 2000`,
`maxAge.value = 2`, `maxAge.spread = 0` and a finite `duration = 1` gets an
emission rate of `2000/1 = 2000` particles per second, not
`particleCount / effectiveMaxAge = 1000`. -/
theorem pps_duration_counterexample :
    ppsOnAdd 2000 2 0 1 = 2000 ∧ ppsOnAdd 2000 2 0 1 ≠ 2000 / (2 + 0) := by
  constructor
  · norm_num [ppsOnAdd, calculatePPSValue]
  · norm_num [ppsOnAdd, calculatePPSValue]

/-- C6 (amended): for an emitter without a finite duration (`duration = -1`,
the default) the emission rate installed by `addEmitter` is
`particleCount / (maxAge.value + maxAge.spread)`; with a finite duration it is
`particleCount / min(maxAge.value + maxAge.spread, duration)`. -/
theorem pps_on_add_characterization (c v s d : ℚ) :
    (d = -1 → ppsOnAdd c v s d = c / (v + s)) ∧
    (d ≠ -1 → ppsOnAdd c v s d = c / min (v + s) d) := by
  constructor
  · intro hd
    simp [ppsOnAdd, calculatePPSValue, hd]
  · intro hd
    simp only [ppsOnAdd, calculatePPSValue, if_pos hd]
    rcases lt_trichotomy (v + s) d with h | h | h
    · rw [if_pos h, min_eq_left h.le]
    · rw [if_neg (by simp [h]), h, min_self]
    · rw [if_neg (not_lt.mpr h.le), min_eq_right h.le]

/-- Witness for C6 (amended): the fountain scenario, `particleCount = 2000`,
`maxAge.value = 2`, `maxAge.spread = 0`, no duration, gives 1000 particles
per second. -/
theorem pps_on_add_characterization_witness :
    ppsOnAdd 2000 2 0 (-1) = 2000 / (2 + 0) ∧ (2000 : ℚ) / (2 + 0) = 1000 :=
  ⟨(pps_on_add_characterization 2000 2 0 (-1)).1 rfl, by norm_num⟩

/-- Helper: `getD` through `mapIdx` at an in-bounds index. -/
theorem getD_mapIdx {α β : Type _} (l : List α) (f : ℕ → α → β) (i : ℕ) (d : β)
    (h : i < l.length) :
    (l.mapIdx f).getD i d = f i (l.get ⟨i, h⟩) := by
  rw [List.getD_eq_get _ _ (by simpa using h)]
  exact List.get_mapIdx l f i h _

/-- Helper: the death indicator of `checkSlot`, spelled out. -/
theorem checkSlot_snd (direction : ℤ) (dt : ℚ) (s : Slot) :
    (checkSlot direction dt s).2 =
      decide (s.alive ≠ 0 ∧
        if direction = 1 then s.maxAge ≤ s.age + dt else s.age - dt ≤ 0) := by
  simp only [checkSlot]
  split_ifs <;> simp_all [sub_nonpos]

/-- C7: on a non-static emitter's sweep over its slot range, each dead slot
is left unchanged, each alive slot ages by `dt` forward (by `-dt` reversed),
alive slots crossing the max-age boundary are marked dead (and only those),
slots outside the range are untouched, and the active-particle counter is
decremented exactly once per alive slot that crossed the boundary. -/
theorem age_death_sweep (direction : ℤ) (dt : ℚ) (start end_ : ℕ)
    (params : List Slot) (h : end_ ≤ params.length) :
    (∀ i, i < params.length → ¬(start ≤ i ∧ i < end_) →
      (checkParticleAges direction dt start end_ params).1.getD i slot0 =
        params.getD i slot0) ∧
    (∀ i, start ≤ i → i < end_ →
      sweepSlotSpec direction dt (params.getD i slot0)
        ((checkParticleAges direction dt start end_ params).1.getD i slot0)) ∧
    (checkParticleAges direction dt start end_ params).2 =
      ((params.drop start).take (end_ - start)).countP
        (fun s => decide (s.alive ≠ 0 ∧
          if direction = 1 then s.maxAge ≤ s.age + dt else s.age - dt ≤ 0)) := by
  refine ⟨?_, ?_, ?_⟩
  · intro i hi hout
    rw [checkParticleAges, getD_mapIdx _ _ _ _ hi, if_neg hout,
      List.getD_eq_get _ _ hi]
  · intro i h1 h2
    have hi : i < params.length := lt_of_lt_of_le h2 h
    rw [checkParticleAges, getD_mapIdx _ _ _ _ hi, if_pos ⟨h1, h2⟩,
      List.getD_eq_get _ _ hi]
    set s := params.get ⟨i, hi⟩ with hs
    refine ⟨?_, ?_, ?_, ?_, ?_⟩
    · intro hdead
      simp [checkSlot, hdead]
    · intro halive hdir hsurv
      simp [checkSlot, halive, hdir, not_le.mpr hsurv]
    · intro halive hdir hdie
      simp [checkSlot, halive, hdir, hdie]
    · intro halive hdir hsurv
      simp [checkSlot, halive, hdir, not_le.mpr hsurv]
    · intro halive hdir hdie
      simp [checkSlot, halive, hdir, hdie]
  · rw [checkParticleAges]
    exact List.countP_congr (fun s _ => by rw [checkSlot_snd])

/-- Witness for C7 on `demoParams` with `dt = 1/5`, forward direction,
range `[0, 3)`: slot 2 crosses its max age and exactly one death is counted. -/
theorem age_death_sweep_witness :
    sweepSlotSpec 1 (1/5) (demoParams.getD 2 slot0)
      ((checkParticleAges 1 (1/5) 0 3 demoParams).1.getD 2 slot0) ∧
    (checkParticleAges 1 (1/5) 0 3 demoParams).2 = 1 := by
  have h := age_death_sweep 1 (1/5) 0 3 demoParams (by simp [demoParams])
  refine ⟨h.2.1 2 (by decide) (by decide), ?_⟩
  rw [h.2.2]
  norm_num [demoParams, List.countP_cons]

/-- Helper: closed form of `updateDefines`: each flag is the old flag OR-ed
with the disjunction of the per-emitter conditions (texture rotation gated on
the absence of a sprite-sheet); the sprite flag is untouched. -/
theorem updateDefines_characterization (d : DefinesSt) (ems : List EmitterDefines) :
    updateDefines d ems =
      { shouldRotateTexture :=
          if d.shouldCalculateSprite then d.shouldRotateTexture
          else d.shouldRotateTexture || ems.any condRotTexture,
        shouldRotateParticles := d.shouldRotateParticles || ems.any condRotParticles,
        shouldWiggleParticles := d.shouldWiggleParticles || ems.any condWiggle,
        shouldCalculateSprite := d.shouldCalculateSprite } := by
  rw [updateDefines, List.foldl_reverse]
  induction ems with
  | nil => cases d; simp
  | cons e es ih =>
      rw [List.foldr_cons, ih]
      cases hs : d.shouldCalculateSprite <;>
        simp [updateDefinesStep, hs, List.any_cons, Bool.or_assoc, Bool.or_comm,
          Bool.or_left_comm]

/-- C9 counterexample: adding an emitter with nonzero (negative) rotation
angle `-1` and zero angle spread to a fresh group does NOT set
`SHOULD_ROTATE_PARTICLES`: the code tests the truthiness of
`Math.max(angle, angleSpread) = max(-1, 0) = 0`. -/
theorem defines_nonzero_counterexample :
    (⟨[0, 0, 0, 0], [0, 0, 0, 0], -1, 0, 0, 0⟩ : EmitterDefines).rotationAngle ≠ 0 ∧
    (addEmitterDefines ⟨[0, 0, 0, 0], [0, 0, 0, 0], -1, 0, 0, 0⟩
        ⟨⟨false, false, false, false⟩, []⟩).defines.shouldRotateParticles = false := by
  constructor
  · norm_num
  · rw [addEmitterDefines, updateDefines_characterization]
    simp [condRotParticles]

/-- C9 (amended): the shader feature flags are monotone accumulators.
`updateDefines` sets each flag exactly when it was already set or some
attached emitter's `max(value, spread)` for the corresponding property is
nonzero (texture rotation only when no sprite-sheet is configured); and no
sequence of addEmitter / removeEmitter / updateDefines calls ever clears a
set flag — in particular removing the only emitter that enabled a flag does
not clear it. -/
theorem defines_flags_accumulator (d : DefinesSt) (ems : List EmitterDefines)
    (g : GroupDefinesSt) (ops : List DefinesOp) :
    ((updateDefines d ems).shouldRotateTexture =
      (if d.shouldCalculateSprite then d.shouldRotateTexture
       else d.shouldRotateTexture || ems.any condRotTexture)) ∧
    ((updateDefines d ems).shouldRotateParticles =
      (d.shouldRotateParticles || ems.any condRotParticles)) ∧
    ((updateDefines d ems).shouldWiggleParticles =
      (d.shouldWiggleParticles || ems.any condWiggle)) ∧
    (g.defines.shouldRotateTexture = true →
      (applyDefinesOps g ops).defines.shouldRotateTexture = true) ∧
    (g.defines.shouldRotateParticles = true →
      (applyDefinesOps g ops).defines.shouldRotateParticles = true) ∧
    (g.defines.shouldWiggleParticles = true →
      (applyDefinesOps g ops).defines.shouldWiggleParticles = true) := by
  have hstep : ∀ (g' : GroupDefinesSt) (op : DefinesOp),
      (g'.defines.shouldRotateTexture = true →
        (applyDefinesOp g' op).defines.shouldRotateTexture = true) ∧
      (g'.defines.shouldRotateParticles = true →
        (applyDefinesOp g' op).defines.shouldRotateParticles = true) ∧
      (g'.defines.shouldWiggleParticles = true →
        (applyDefinesOp g' op).defines.shouldWiggleParticles = true) := by
    intro g' op
    refine ⟨fun h => ?_, fun h => ?_, fun h => ?_⟩ <;>
      cases op <;>
        simp [applyDefinesOp, addEmitterDefines, removeEmitterDefines,
          updateDefines_characterization, h]
  refine ⟨?_, ?_, ?_, ?_, ?_, ?_⟩
  · rw [updateDefines_characterization]
  · rw [updateDefines_characterization]
  · rw [updateDefines_characterization]
  all_goals
    induction ops generalizing g with
    | nil => intro h; simpa [applyDefinesOps] using h
    | cons op ops ih =>
        intro h
        rw [applyDefinesOps, List.foldl_cons]
        exact ih (applyDefinesOp g op) (by
          first
          | exact (hstep g op).1 h
          | exact (hstep g op).2.1 h
          | exact (hstep g op).2.2 h)

/-- Witness for C9 (amended): a group whose wiggle flag is set keeps it set
after removing its only emitter (the emitter that enabled it). -/
theorem defines_flags_accumulator_witness :
    (applyDefinesOps
        ⟨⟨false, false, true, false⟩, [⟨[0, 0, 0, 0], [0, 0, 0, 0], 0, 0, 2, 0⟩]⟩
        [DefinesOp.remove 0]).defines.shouldWiggleParticles = true :=
  (defines_flags_accumulator ⟨false, false, true, false⟩ []
      ⟨⟨false, false, true, false⟩, [⟨[0, 0, 0, 0], [0, 0, 0, 0], 0, 0, 2, 0⟩]⟩
      [DefinesOp.remove 0]).2.2.2.2.2 rfl

/-- Helper: `getD` of `set` at the written (in-bounds) index. -/
theorem getD_set_self_of_lt (l : List ℚ) (i : ℕ) (a d : ℚ) (h : i < l.length) :
    (l.set i a).getD i d = a := by
  simp [List.getD_eq_getElem?_getD, List.getElem?_set_self, h]

/-- Helper: `getD` of `set` at a different index. -/
theorem getD_set_ne (l : List ℚ) (i j : ℕ) (a d : ℚ) (h : i ≠ j) :
    (l.set i a).getD j d = l.getD j d := by
  simp [List.getD_eq_getElem?_getD, List.getElem?_set_ne h]

/-- Helper: unfolding one iteration of the alive/age zeroing loop. -/
theorem zeroAliveAgeLoop_succ (start n : ℕ) (l : List ℚ) :
    zeroAliveAgeLoop start (n + 1) l =
      ((zeroAliveAgeLoop start n l).set ((start + n) * 4) 0).set
        ((start + n) * 4 + 1) 0 := by
  rw [zeroAliveAgeLoop, List.range_succ, List.foldl_append, List.foldl_cons,
    List.foldl_nil]
  rfl

/-- Helper: the zeroing loop preserves the array length. -/
theorem zeroAliveAgeLoop_length (start n : ℕ) (l : List ℚ) :
    (zeroAliveAgeLoop start n l).length = l.length := by
  induction n with
  | zero => rfl
  | succ n ih => rw [zeroAliveAgeLoop_succ, List.length_set, List.length_set, ih]

/-- Helper: elements whose index is neither `i*4` nor `i*4+1` for a swept
slot `i` are untouched by the zeroing loop. -/
theorem zeroAliveAgeLoop_getD_untouched (start n j : ℕ) (l : List ℚ) (d : ℚ)
    (h : ∀ i, start ≤ i → i < start + n → j ≠ i * 4 ∧ j ≠ i * 4 + 1) :
    (zeroAliveAgeLoop start n l).getD j d = l.getD j d := by
  induction n with
  | zero => rfl
  | succ n ih =>
      have hj := h (start + n) (by omega) (by omega)
      rw [zeroAliveAgeLoop_succ, getD_set_ne _ _ _ _ _ (by omega),
        getD_set_ne _ _ _ _ _ (by omega)]
      exact ih (fun i h1 h2 => h i h1 (by omega))

/-- Helper: the zeroing loop writes `0` to the alive and age elements of
every swept in-bounds slot. -/
theorem zeroAliveAgeLoop_getD_zeroed (start n i : ℕ) (l : List ℚ)
    (h1 : start ≤ i) (h2 : i < start + n) (hb : i * 4 + 1 < l.length) :
    (zeroAliveAgeLoop start n l).getD (i * 4) 1 = 0 ∧
    (zeroAliveAgeLoop start n l).getD (i * 4 + 1) 1 = 0 := by
  induction n with
  | zero => omega
  | succ n ih =>
      rw [zeroAliveAgeLoop_succ]
      by_cases hc : i = start + n
      · subst hc
        have hlen1 : (start + n) * 4 < (zeroAliveAgeLoop start n l).length := by
          rw [zeroAliveAgeLoop_length]; omega
        have hlen2 : (start + n) * 4 + 1 <
            ((zeroAliveAgeLoop start n l).set ((start + n) * 4) 0).length := by
          rw [List.length_set, zeroAliveAgeLoop_length]; omega
        refine ⟨?_, getD_set_self_of_lt _ _ _ _ hlen2⟩
        rw [getD_set_ne _ _ _ _ _ (by omega)]
        exact getD_set_self_of_lt _ _ _ _ hlen1
      · have hprev := ih (by omega)
        rw [getD_set_ne _ _ _ _ _ (by omega), getD_set_ne _ _ _ _ _ (by omega),
          getD_set_ne _ _ _ _ _ (by omega), getD_set_ne _ _ _ _ _ (by omega)]
        exact hprev

/-- C10: `reset(force)` zeroes the emitter's own age and alive flag; with
`force = true` it additionally zeroes alive and age (components 0 and 1) of
every slot in the emitter's own range in the params channel and marks the
params buffer for a full re-upload, leaving the maxAge and wiggle components
(2 and 3) of those slots, every element outside the range, and every other
attribute channel unchanged; with `force = false` no buffer contents change
and nothing is marked. -/
theorem emitter_reset_spec (force : Bool) (e : EmitterResetSt) (off count : ℕ)
    (params : List ℚ) (others : List (List ℚ))
    (h : (off + count) * 4 ≤ params.length) :
    (emitterReset force e off count params others).1 = ⟨0, false⟩ ∧
    (emitterReset force e off count params others).2.2.1 = others ∧
    (force = false →
      (emitterReset force e off count params others).2.1 = params ∧
      (emitterReset force e off count params others).2.2.2 = none) ∧
    (force = true →
      (emitterReset force e off count params others).2.2.2 = some fullReuploadMark ∧
      (∀ i, off ≤ i → i < off + count →
        (emitterReset force e off count params others).2.1.getD (i * 4) 1 = 0 ∧
        (emitterReset force e off count params others).2.1.getD (i * 4 + 1) 1 = 0 ∧
        (emitterReset force e off count params others).2.1.getD (i * 4 + 2) 0 =
          params.getD (i * 4 + 2) 0 ∧
        (emitterReset force e off count params others).2.1.getD (i * 4 + 3) 0 =
          params.getD (i * 4 + 3) 0) ∧
      (∀ j, j < off * 4 ∨ (off + count) * 4 ≤ j →
        (emitterReset force e off count params others).2.1.getD j 0 =
          params.getD j 0)) := by
  cases force with
  | false => simp [emitterReset]
  | true =>
      have hcore : (emitterReset true e off count params others).2.1 =
          zeroAliveAgeLoop off count params := by
        have hsub : off + count - off = count := by omega
        simp [emitterReset, zeroAliveAge, hsub]
      refine ⟨rfl, rfl, by simp, fun _ => ⟨rfl, ?_, ?_⟩⟩
      · intro i hi1 hi2
        rw [hcore]
        have hb : i * 4 + 1 < params.length := by omega
        have hz := zeroAliveAgeLoop_getD_zeroed off count i params hi1 hi2 hb
        refine ⟨hz.1, hz.2, ?_, ?_⟩ <;>
          exact zeroAliveAgeLoop_getD_untouched _ _ _ _ _ (fun i' h1 h2 => by omega)
      · intro j hj
        rw [hcore]
        exact zeroAliveAgeLoop_getD_untouched _ _ _ _ _ (fun i' h1 h2 => by omega)

/-- C2 counterexample: with component size 4 and an ample buffer, a tick that
writes exactly slots 5 and 9 of a channel reports an update range starting at
element offset 0, not at slot 5 (element 20): `resetUpdateRange` floors the
minimum at 0.  And a tick that writes nothing still flags the channel as
needing an update with a nonzero element count. -/
theorem dirty_range_counterexample :
    (tickChannelReport 4 4000 [5, 9] ⟨JSNum.fin 0, JSNum.fin 0⟩
        initialEmitterRange).offset = JSNum.fin 0 ∧
    JSNum.fin (0 : ℚ) ≠ JSNum.fin ((5 : ℚ) * 4) ∧
    (tickChannelReport 4 4000 [] ⟨JSNum.fin 0, JSNum.fin 0⟩
        initialEmitterRange).needsUpdate = true ∧
    (tickChannelReport 4 4000 [] ⟨JSNum.fin 0, JSNum.fin 0⟩
        initialEmitterRange).count ≠ JSNum.fin 0 := by
  refine ⟨?_, by norm_num, rfl, ?_⟩ <;>
    norm_num [tickChannelReport, recordWrites, updateAttributeUpdateRange,
      initialEmitterRange, resetUpdateRange, setUpdateRange, flagUpdate,
      jsnMin, jsnMax, jsnScale, jsnAdd, jsnSub, jsnNeg]

/-- C2 (amended): after a tick in which exactly slots `a` and `b` (`a ≤ b`)
of a channel were written, the EMITTER-side per-channel range is exactly
`[a, b]` in slot units; but the channel's reported update range is the
envelope `[0, b]`: element offset 0 and element count `(b+1)*cs`, because
`resetUpdateRange` resets the stored minimum to 0 rather than `+Infinity`.
After a tick in which no slot of the channel was written, the channel is
nevertheless flagged as needing an update with offset 0 and element count
`min(cs, len)`: `_updateBuffers` calls `flagUpdate` for every channel of
every emitter unconditionally. -/
theorem dirty_range_behavior (a b cs len : ℕ) (hab : a ≤ b) (hcs : 1 ≤ cs)
    (hlen : (b + 1) * cs ≤ len) :
    recordWrites [a, b] initialEmitterRange =
      ⟨JSNum.fin a, JSNum.fin b⟩ ∧
    (∀ s0, tickChannelReport cs len [a, b] s0 initialEmitterRange =
      ⟨JSNum.fin 0, JSNum.fin ((b + 1) * cs), true⟩) ∧
    (∀ s0, tickChannelReport cs len [] s0 initialEmitterRange =
      ⟨JSNum.fin 0, JSNum.fin (min cs len), true⟩) := by
  have hwrites : recordWrites [a, b] initialEmitterRange =
      ⟨JSNum.fin a, JSNum.fin b⟩ := by
    simp only [recordWrites, List.foldl_cons, List.foldl_nil,
      initialEmitterRange, updateAttributeUpdateRange, jsnMin, jsnMax]
    have h1 : min (b : ℚ) a = a := min_eq_right (by exact_mod_cast hab)
    have h2 : max (b : ℚ) a = b := max_eq_left (by exact_mod_cast hab)
    rw [h1, h2]
  refine ⟨hwrites, fun s0 => ?_, fun s0 => ?_⟩
  · rw [tickChannelReport, hwrites]
    simp only [resetUpdateRange, setUpdateRange, flagUpdate, jsnMin, jsnMax,
      jsnScale, jsnAdd, jsnSub, jsnNeg]
    have h1 : min ((a : ℚ) * cs) ((0 : ℚ) * cs) = 0 := by
      rw [zero_mul]
      exact min_eq_right (by positivity)
    have h2 : max ((b : ℚ) * cs) ((0 : ℚ) * cs) = (b : ℚ) * cs := by
      rw [zero_mul]
      exact max_eq_left (by positivity)
    rw [h1, h2]
    have h4 : min ((b : ℚ) * cs + -0 + cs) (len : ℚ) = (((b + 1) * cs : ℕ) : ℚ) := by
      have h3 : (b : ℚ) * cs + -0 + cs = (((b + 1) * cs : ℕ) : ℚ) := by
        push_cast
        ring
      rw [h3]
      exact min_eq_left (by exact_mod_cast hlen)
    rw [h4]
    push_cast
    ring_nf
  · rw [tickChannelReport]
    have hcs0 : ¬cs = 0 := by omega
    simp only [recordWrites, List.foldl_nil, initialEmitterRange,
      resetUpdateRange, setUpdateRange]
    rw [show jsnScale cs JSNum.posInf = JSNum.posInf by simp [jsnScale, hcs0],
      show jsnScale cs JSNum.negInf = JSNum.negInf by simp [jsnScale, hcs0]]
    simp only [jsnMin, jsnMax, jsnScale, flagUpdate, jsnAdd, jsnSub, jsnNeg]
    rw [show ((0 : ℚ) * cs) = 0 from zero_mul _]
    rw [show (0 : ℚ) + -0 + cs = (cs : ℚ) by ring]

/-- Witness for C2 (amended) at slots 5 and 9, component size 4, buffer
length 4000. -/
theorem dirty_range_behavior_witness :
    recordWrites [5, 9] initialEmitterRange = ⟨JSNum.fin 5, JSNum.fin 9⟩ ∧
    tickChannelReport 4 4000 [5, 9] ⟨JSNum.fin 0, JSNum.fin 0⟩
        initialEmitterRange = ⟨JSNum.fin 0, JSNum.fin ((9 + 1) * 4), true⟩ := by
  have h := dirty_range_behavior 5 9 4 4000 (by norm_num) (by norm_num) (by norm_num)
  exact ⟨by simpa using h.1, by simpa using h.2.1 ⟨JSNum.fin 0, JSNum.fin 0⟩⟩

/-- C3 counterexample: a group declared with `maxParticleCount = 10` that
receives two 6-particle emitters warns and proceeds, but its channel buffers
stay sized for the declared 10 slots (30 and 40 elements), NOT grown to
cover all 12 particles (which would need at least 36 and 48 elements). -/
theorem capacity_overrun_counterexample :
    (addEmitterCapacity (addEmitterCapacity gCapDemo 6) 6).warned = true ∧
    (addEmitterCapacity (addEmitterCapacity gCapDemo 6) 6).particleCount = 12 ∧
    (addEmitterCapacity (addEmitterCapacity gCapDemo 6) 6).channels =
      [(3, some ⟨10, 30⟩), (4, some ⟨10, 40⟩)] ∧
    30 < 12 * 3 := by
  decide

/-- C3 (amended): when a declared hard capacity `m` is exceeded by an add,
the operation logs a warning and still proceeds (the emitter is attached and
the total particle count grows past `m`), but every attribute channel's
buffer is sized to the declared capacity — `m * componentSize` elements,
fewer than the `particleCount * componentSize` elements all attached
particles would need — instead of being grown to fit. -/
theorem capacity_overrun_behavior (g : GroupCapacitySt) (count m : ℕ)
    (hm : g.maxParticleCount = some m)
    (hch : ∀ c ∈ g.channels, c.2 = none ∨ c.2 = some ⟨m, m * c.1⟩)
    (hover : m < g.particleCount + count) :
    (addEmitterCapacity g count).warned = true ∧
    (addEmitterCapacity g count).particleCount = g.particleCount + count ∧
    (addEmitterCapacity g count).emitterCounts = g.emitterCounts ++ [count] ∧
    (∀ c ∈ (addEmitterCapacity g count).channels,
      c.2 = some ⟨m, m * c.1⟩ ∧
      (1 ≤ c.1 → m * c.1 < (addEmitterCapacity g count).particleCount * c.1)) := by
  refine ⟨by simp [addEmitterCapacity, hm, hover], rfl, rfl, ?_⟩
  intro c hc
  simp only [addEmitterCapacity, hm, List.mem_map] at hc
  obtain ⟨⟨cs, st⟩, hmem, rfl⟩ := hc
  have hst : ensureTypedArray cs m st = some ⟨m, m * cs⟩ := by
    rcases hch ⟨cs, st⟩ hmem with h | h <;> simp only at h <;> rw [h]
    · rfl
    · by_cases hcase : m = m * cs
      · show (if (⟨m, m * cs⟩ : TAState).size = m * cs then some (⟨m, m * cs⟩ : TAState)
            else if (⟨m, m * cs⟩ : TAState).size ≠ m then some (setSizeTA cs m ⟨m, m * cs⟩)
            else some ⟨m, m * cs⟩) = some (⟨m, m * cs⟩ : TAState)
        rw [if_pos hcase]
      · simp [ensureTypedArray, hcase]
  refine ⟨by simpa using hst, fun hcs => ?_⟩
  simp only [addEmitterCapacity]
  exact (Nat.mul_lt_mul_right (show 0 < cs by omega)).mpr hover

/-- Witness for C3 (amended): the second 6-particle add to the capacity-10
demo group. -/
theorem capacity_overrun_behavior_witness :
    (addEmitterCapacity (addEmitterCapacity gCapDemo 6) 6).warned = true ∧
    (addEmitterCapacity (addEmitterCapacity gCapDemo 6) 6).particleCount =
      (addEmitterCapacity gCapDemo 6).particleCount + 6 :=
  ⟨(capacity_overrun_behavior (addEmitterCapacity gCapDemo 6) 6 10 (by decide)
      (by decide) (by decide)).1,
   (capacity_overrun_behavior (addEmitterCapacity gCapDemo 6) 6 10 (by decide)
      (by decide) (by decide)).2.1⟩

/-- Helper: an element not matching the predicate survives `eraseP`. -/
theorem mem_eraseP_of_neg {l : List EmitterSlotRec} {p : EmitterSlotRec → Bool}
    {b : EmitterSlotRec} (h : b ∈ l) (hp : p b = false) : b ∈ l.eraseP p := by
  induction l with
  | nil => cases h
  | cons x xs ih =>
      by_cases hx : p x
      · rw [List.eraseP_cons_of_pos hx]
        rcases List.mem_cons.mp h with rfl | hmem
        · rw [hp] at hx
          cases hx
        · exact hmem
      · rw [List.eraseP_cons_of_neg (by simpa using hx)]
        rcases List.mem_cons.mp h with rfl | hmem
        · exact List.mem_cons_self _ _
        · exact List.mem_cons_of_mem _ (ih hmem)

/-- Helper: an element of the region after a spliced-out window of `n` slots
moves down by `n * cs` element positions with its value intact. -/
theorem spliceTypedArray_getD_shift (cs s n j : ℕ) (l : List ℚ)
    (hj : s * cs ≤ j) (hbound : j + n * cs < l.length) :
    (spliceTypedArray cs s (s + n) l).getD j 0 = l.getD (j + n * cs) 0 := by
  have hadd : (s + n) * cs = s * cs + n * cs := add_mul s n cs
  have hlen : (l.take (s * cs)).length = s * cs := by
    rw [List.length_take]
    omega
  rw [spliceTypedArray, List.getD_eq_getElem?_getD, List.getD_eq_getElem?_getD,
    List.getElem?_append_right (by omega), hlen, List.getElem?_drop]
  congr 2
  omega

/-- C1 counterexample: removing emitter A (uuid 0, slots `[0,2)`) from the
demo group leaves emitter B's stored record with its pre-removal
`attributeOffset = 2`; the offset is NOT recomputed to
`2 - A.particleCount = 0`. -/
theorem remove_emitter_offset_counterexample :
    ((removeEmitterGroup gRemoveDemo ⟨0, 0, 2⟩).emitters.map
      (fun e => e.attributeOffset)) = [2] ∧ (2 : ℕ) ≠ 2 - 2 := by
  decide

/-- Helper: collapsing the slot-shift index arithmetic: the element position
of particle `p`, component `k`, at the post-splice offset `x - y`, plus the
spliced-out `y * cs` elements, is its pre-splice element position. -/
theorem shift_index_collapse (x y p k cs : ℕ) (hxy : y ≤ x) :
    (x - y + p) * cs + k + y * cs = (x + p) * cs + k := by
  have hgen : ∀ A : ℕ, A * cs + k + y * cs = (A + y) * cs + k := fun A => by ring
  rw [hgen (x - y + p), show x - y + p + y = x + p by omega]

/-- C1 (amended): removing emitter A (attached before B: A's slot range ends
at or before B's offset) shifts B's particle data down by exactly A's
particle count in every attribute channel — B's particles retain their
pre-removal values at their new, `A.particleCount`-lower slot positions —
and decrements the group particle count; but B's stored slot offset is NOT
recomputed: B's record survives removal unchanged, still holding its
pre-removal `attributeOffset`. -/
theorem remove_emitter_reindex (g : GroupBuffersSt) (a b : EmitterSlotRec)
    (ha : a ∈ g.emitters) (hb : b ∈ g.emitters) (hneq : a.uuid ≠ b.uuid)
    (horder : a.attributeOffset + a.particleCount ≤ b.attributeOffset) :
    b ∈ (removeEmitterGroup g a).emitters ∧
    (removeEmitterGroup g a).particleCount = g.particleCount - a.particleCount ∧
    (g.params.componentSize = 4 →
      (b.attributeOffset + b.particleCount) * 4 ≤ g.params.data.length →
      ∀ p k, p < b.particleCount → k < 4 →
        (removeEmitterGroup g a).params.data.getD
          ((b.attributeOffset - a.particleCount + p) * 4 + k) 0 =
        g.params.data.getD ((b.attributeOffset + p) * 4 + k) 0) ∧
    (∀ c ∈ g.channels,
      ({ c with data := spliceTypedArray c.componentSize a.attributeOffset
                          (a.attributeOffset + a.particleCount) c.data } ∈
            (removeEmitterGroup g a).channels) ∧
      ((b.attributeOffset + b.particleCount) * c.componentSize ≤ c.data.length →
        ∀ p k, p < b.particleCount → k < c.componentSize →
          (spliceTypedArray c.componentSize a.attributeOffset
            (a.attributeOffset + a.particleCount) c.data).getD
            ((b.attributeOffset - a.particleCount + p) * c.componentSize + k) 0 =
          c.data.getD ((b.attributeOffset + p) * c.componentSize + k) 0)) := by
  have htrue : (g.emitters.map (fun e => e.uuid)).contains a.uuid = true :=
    List.elem_eq_true_of_mem (List.mem_map_of_mem _ ha)
  have hunfold : removeEmitterGroup g a =
      { emitters := g.emitters.eraseP (fun e => e.uuid == a.uuid),
        particleCount := g.particleCount - a.particleCount,
        params := { g.params with
          data := spliceTypedArray g.params.componentSize a.attributeOffset
                    (a.attributeOffset + a.particleCount)
                    (zeroAliveAge a.attributeOffset
                      (a.attributeOffset + a.particleCount) g.params.data) },
        channels := g.channels.map (fun c =>
          { c with data := spliceTypedArray c.componentSize a.attributeOffset
                             (a.attributeOffset + a.particleCount) c.data }) } := by
    have hcond : ¬((g.emitters.map (fun e => e.uuid)).contains a.uuid = false) := by
      rw [htrue]
      simp
    rw [removeEmitterGroup, if_neg hcond]
  refine ⟨?_, by rw [hunfold], ?_, ?_⟩
  · rw [hunfold]
    exact mem_eraseP_of_neg hb (by simpa using fun h => hneq h.symm)
  · intro hcs hbound p k hp hk
    rw [hunfold]
    simp only
    rw [hcs]
    have hidx := shift_index_collapse b.attributeOffset a.particleCount p k 4
      (by omega)
    have hzlen : (zeroAliveAge a.attributeOffset
        (a.attributeOffset + a.particleCount) g.params.data).length =
        g.params.data.length := by
      rw [zeroAliveAge, zeroAliveAgeLoop_length]
    rw [spliceTypedArray_getD_shift 4 a.attributeOffset a.particleCount _ _
      (le_trans (Nat.mul_le_mul_right 4 (by omega)) (Nat.le_add_right _ k))
      (by omega)]
    rw [hidx, zeroAliveAge, zeroAliveAgeLoop_getD_untouched]
    intro i h1 h2
    constructor <;> omega
  · intro c hc
    constructor
    · rw [hunfold]
      exact List.mem_map_of_mem _ hc
    · intro hbound p k hp hk
      set cs := c.componentSize with hcsdef
      have hshift := shift_index_collapse b.attributeOffset a.particleCount p k cs
        (by omega)
      have h1 : a.attributeOffset * cs ≤
          (b.attributeOffset - a.particleCount + p) * cs + k :=
        le_trans (Nat.mul_le_mul_right cs (by omega)) (Nat.le_add_right _ k)
      have h2 : (b.attributeOffset - a.particleCount + p) * cs + k +
          a.particleCount * cs < c.data.length := by
        rw [hshift]
        have hstep : (b.attributeOffset + p + 1) * cs ≤
            (b.attributeOffset + b.particleCount) * cs :=
          Nat.mul_le_mul_right cs (by omega)
        have hexp : (b.attributeOffset + p + 1) * cs =
            (b.attributeOffset + p) * cs + cs := by ring
        omega
      rw [spliceTypedArray_getD_shift cs a.attributeOffset a.particleCount
        ((b.attributeOffset - a.particleCount + p) * cs + k) c.data h1 h2,
        hshift]

/-- Witness for C1 (amended) on the demo group: emitter B's unchanged record
survives, and the age element of B's first particle (value 5) is found at its
new, 2-slot-lower position after removing A. -/
theorem remove_emitter_reindex_witness :
    (⟨1, 2, 2⟩ : EmitterSlotRec) ∈
      (removeEmitterGroup gRemoveDemo ⟨0, 0, 2⟩).emitters ∧
    (removeEmitterGroup gRemoveDemo ⟨0, 0, 2⟩).params.data.getD 1 0 =
      gRemoveDemo.params.data.getD 9 0 := by
  have h := remove_emitter_reindex gRemoveDemo ⟨0, 0, 2⟩ ⟨1, 2, 2⟩
    (by decide) (by decide) (by decide) (by decide)
  refine ⟨h.1, ?_⟩
  have h2 := h.2.2.1 rfl (by decide) 0 1 (by decide) (by decide)
  simpa using h2

/-- Witness for C10 with `off = 1`, `count = 1` on an 8-element params array:
slot 1's alive element is zeroed while its maxAge element keeps its value. -/
theorem emitter_reset_spec_witness :
    (emitterReset true ⟨3, true⟩ 1 1 [9, 9, 9, 9, 1, 2, 3, 4] [[5]]).2.1.getD 4 1 = 0 ∧
    (emitterReset true ⟨3, true⟩ 1 1 [9, 9, 9, 9, 1, 2, 3, 4] [[5]]).2.1.getD 6 0 =
      ([9, 9, 9, 9, 1, 2, 3, 4] : List ℚ).getD 6 0 := by
  have h := emitter_reset_spec true ⟨3, true⟩ 1 1 [9, 9, 9, 9, 1, 2, 3, 4] [[5]]
    (by norm_num)
  have h2 := (h.2.2.2 rfl).2.1 1 le_rfl (by norm_num)
  exact ⟨h2.1, h2.2.2.1⟩

end SPE
